import Mathlib

/-
Verification of the morgul core: shallow embedding of the script engine
(PythonExecutor), the act/heal pipeline (ActHandler), the context builder
pruning (ContextBuilder), the REPL agent budget and block accounting
(REPLAgent), the tool-loop agent history (AgentHandler), and the translate
engine caching (TranslateEngine), together with proofs of the spec claims.
-/

namespace Morgul

/-- Python values stored in the script namespace.  Thread objects carry the
value of their selected frame; functions and other objects are opaque tags. -/
inductive PyVal where
  | none
  | pyThread (selectedFrame : PyVal)
  | func (tag : Nat)
  | obj (tag : Nat)
deriving DecidableEq, Repr

/-- A debugger thread as seen from the executor: only its selected frame
matters to the namespace refresh. -/
structure ThreadObj where
  selectedFrame : PyVal
deriving DecidableEq, Repr

/-- The debugged process: refresh reads its currently selected thread. -/
structure ProcessObj where
  selectedThread : Option ThreadObj
deriving DecidableEq, Repr

/-- A Python dict used as execution namespace: a partial map from names. -/
def NS : Type := String → Option PyVal

/-- The value stored under the name thread by refresh: the selected thread
object, or Python None when the process has no selected thread. -/
def threadEntry (p : ProcessObj) : PyVal :=
  match p.selectedThread with
  | Option.none => PyVal.none
  | Option.some t => PyVal.pyThread t.selectedFrame

/-- The value stored under the name frame by refresh: the selected frame of the selected
thread, or Python None when there is no selected thread. -/
def frameEntry (p : ProcessObj) : PyVal :=
  match p.selectedThread with
  | Option.none => PyVal.none
  | Option.some t => t.selectedFrame

/-- State of a PythonExecutor: the persistent namespace, the parallel
scaffold mapping, and the process handle used by refresh. -/
structure PythonExecutorState where
  ns : NS
  scaffold : NS
  process : ProcessObj

/-- RESERVED_NAMES from executor.py: scaffold names restored after every
exec and protected from tool injection. -/
def RESERVED_NAMES : List String :=
  ["debugger", "target", "process", "thread", "frame",
   "read_string", "read_pointer", "read_uint8", "read_uint16",
   "read_uint32", "read_uint64", "search_memory",
   "struct", "binascii", "json", "re", "collections", "math",
   "print", "range", "len", "int", "str", "float", "bool",
   "list", "dict", "tuple", "set", "bytes", "bytearray",
   "hex", "oct", "bin", "abs", "min", "max", "sum",
   "sorted", "reversed", "enumerate", "zip", "map", "filter",
   "isinstance", "type", "hasattr", "getattr", "setattr",
   "repr", "chr", "ord", "format", "round", "pow", "divmod",
   "hash", "id", "dir", "vars", "globals", "locals", "any", "all", "next", "iter",
   "slice", "Exception", "ValueError", "TypeError", "KeyError",
   "IndexError", "AttributeError", "RuntimeError", "StopIteration",
   "True", "False", "None", "__builtins__"]

/-- REPL_SCAFFOLD_NAMES from executor.py: REPL scaffold names that custom
tools also cannot shadow. -/
def REPL_SCAFFOLD_NAMES : List String :=
  ["DONE", "FINAL_VAR", "llm_query", "llm_query_batched"]

/-- MAX_OUTPUT_CHARS from executor.py. -/
def MAX_OUTPUT_CHARS : Nat := 20000

/-- Python s[:n] slicing on strings (first n characters). -/
def strTake (s : String) (n : Nat) : String := String.mk (s.toList.take n)

/-- The _truncate helper of executor.py at the default output cap. -/
def _truncate (text : String) : String :=
  if text.length ≤ MAX_OUTPUT_CHARS then text
  else strTake text MAX_OUTPUT_CHARS
    ++ "\n... (truncated, " ++ toString text.length ++ " chars total)"

/-- PythonExecutor._restore_scaffold: write every scaffold entry back into
the namespace. -/
def _restore_scaffold (st : PythonExecutorState) : PythonExecutorState :=
  { st with ns := fun k =>
      match st.scaffold k with
      | Option.some v => Option.some v
      | Option.none => st.ns k }

/-- PythonExecutor.refresh: update the thread and frame entries from the
currently selected thread of the process (None when there is no thread). -/
def refresh (st : PythonExecutorState) : PythonExecutorState :=
  { st with ns := fun k =>
      if k = "thread" then Option.some (threadEntry st.process)
      else if k = "frame" then Option.some (frameEntry st.process)
      else st.ns k }

/-- PythonExecutor.update_scaffold: bind the name in the namespace and
record it in the scaffold mapping. -/
def update_scaffold (name : String) (v : PyVal) (st : PythonExecutorState) :
    PythonExecutorState :=
  { st with
    ns := fun k => if k = name then Option.some v else st.ns k,
    scaffold := fun k => if k = name then Option.some v else st.scaffold k }

/-- Behaviour of one executed code fragment: it may finish normally or raise
an exception (with a formatted traceback), in both cases leaving a final
namespace and text written to the stdout/stderr buffers. -/
inductive FragOutcome where
  | normal (ns : NS) (stdout stderr : String)
  | raised (ns : NS) (stdout stderr : String) (tb : String)

/-- PythonExecutor.execute: run the fragment against the namespace, catch
any exception into stderr as a traceback, restore the scaffold, refresh
thread/frame, truncate the captured buffers, and report success. -/
def execute (frag : NS → FragOutcome) (st : PythonExecutorState) :
    PythonExecutorState × String × String × Bool :=
  match frag st.ns with
  | FragOutcome.normal ns out err =>
      (refresh (_restore_scaffold { st with ns := ns }),
       _truncate out, _truncate err, true)
  | FragOutcome.raised ns out err tb =>
      (refresh (_restore_scaffold { st with ns := ns }),
       _truncate out, _truncate (err ++ tb), false)

/-- A single-quote character, used when rendering Python repr of strings. -/
def squote : String := String.singleton (Char.ofNat 39)

/-- A user-supplied tool passed to inject_tools: either a raw value or a
rich record carrying the tool and a description. -/
inductive ToolSpec where
  | plain (value : PyVal)
  | rich (tool : PyVal) (description : String)
deriving DecidableEq, Repr

/-- Python callable(v) on our value model. -/
def pyCallable : PyVal → Bool
  | PyVal.func _ => true
  | _ => false

/-- The value actually bound for a tool: the tool field of a rich record,
else the raw value. -/
def toolValue : ToolSpec → PyVal
  | ToolSpec.plain v => v
  | ToolSpec.rich t _ => t

/-- The explicit description of a tool record, empty when absent. -/
def toolDesc : ToolSpec → String
  | ToolSpec.plain _ => ""
  | ToolSpec.rich _ d => d

/-- PythonExecutor.inject_tools: sequentially bind each tool as a scaffold
entry, rejecting names in the fixed forbidden set (RESERVED_NAMES union
REPL_SCAFFOLD_NAMES); on rejection the error is raised and the bindings made
so far remain. -/
def inject_tools : List (String × ToolSpec) → PythonExecutorState →
    PythonExecutorState × Except String (List (String × String))
  | [], st => (st, Except.ok [])
  | (name, spec) :: rest, st =>
      if name ∈ RESERVED_NAMES ∨ name ∈ REPL_SCAFFOLD_NAMES then
        (st, Except.error ("Tool name " ++ squote ++ name ++ squote
          ++ " conflicts with reserved name"))
      else
        let st' := update_scaffold name (toolValue spec) st
        let desc := if toolDesc spec = "" && pyCallable (toolValue spec)
          then "callable(" ++ name ++ ")" else toolDesc spec
        match inject_tools rest st' with
        | (st'', Except.ok ds) => (st'', Except.ok ((name, desc) :: ds))
        | (st'', Except.error e) => (st'', Except.error e)

/-- Characters stripped by Python str.strip() with no argument. -/
def isPyWhitespace (c : Char) : Bool :=
  c = ' ' || c = '\t' || c = '\n' || c = '\r' || c.toNat = 11 || c.toNat = 12

/-- Python s.strip(): remove leading and trailing whitespace. -/
def pyStrip (s : String) : String :=
  String.mk (((s.toList.dropWhile isPyWhitespace).reverse.dropWhile
    isPyWhitespace).reverse)

/-- Python repr on our opaque value model, used only to render the
FINAL_VAR feedback line. -/
def pyRepr : PyVal → String
  | PyVal.none => "None"
  | PyVal.pyThread _ => "<thread>"
  | PyVal.func n => "<function " ++ toString n ++ ">"
  | PyVal.obj n => "<object " ++ toString n ++ ">"

/-- State of a REPLAgent relevant to code-block execution. -/
structure REPLState where
  exec : PythonExecutorState
  done : Bool
  result : String
  lastFinalVar : Option PyVal
  codeBlocksExecuted : Nat

/-- Behaviour of one REPL code block: it may finish normally, raise the
DONE signal, raise the FINAL_VAR signal, or raise an ordinary exception. -/
inductive ReplFragOutcome where
  | normal (ns : NS) (stdout stderr : String)
  | doneSignal (ns : NS) (stdout stderr : String) (result : String)
  | finalVarSignal (ns : NS) (stdout stderr : String) (varName : String) (value : PyVal)
  | raised (ns : NS) (stdout stderr : String) (tb : String)

/-- Whether the block raised the done or final-value control signal. -/
def raisesSignal : ReplFragOutcome → Bool
  | ReplFragOutcome.doneSignal _ _ _ _ => true
  | ReplFragOutcome.finalVarSignal _ _ _ _ _ => true
  | _ => false

/-- REPLAgent._execute_sync: run the block, convert the two control signals
into the done flag plus a stdout note, format ordinary exceptions into
stderr, bump the block counter, restore the scaffold and refresh. -/
def _execute_sync (frag : NS → ReplFragOutcome) (st : REPLState) :
    REPLState × String × String :=
  let post : NS → REPLState → REPLState := fun ns s =>
    { s with
      exec := refresh (_restore_scaffold { s.exec with ns := ns }),
      codeBlocksExecuted := s.codeBlocksExecuted + 1 }
  match frag st.exec.ns with
  | ReplFragOutcome.normal ns out err =>
      (post ns st, out, err)
  | ReplFragOutcome.doneSignal ns out err r =>
      (post ns { st with done := true, result := r },
       out ++ "\n[DONE] " ++ r ++ "\n", err)
  | ReplFragOutcome.finalVarSignal ns out err name v =>
      (post ns { st with done := true,
                         result := "FINAL_VAR(" ++ squote ++ name ++ squote ++ ")",
                         lastFinalVar := Option.some v },
       out ++ "\n[FINAL_VAR] " ++ name ++ " = " ++ strTake (pyRepr v) 200 ++ "\n", err)
  | ReplFragOutcome.raised ns out err tb =>
      (post ns st, out, err ++ tb)

/-- REPLAgent._execute: wrap _execute_sync and compute the success flag the
agent records: stripped stderr empty, or the done flag set by the block. -/
def REPLAgent._execute (frag : NS → ReplFragOutcome) (st : REPLState) :
    REPLState × String × String × Bool :=
  let r := _execute_sync frag st
  (r.1, r.2.1, r.2.2, (pyStrip r.2.2 = "" : Bool) || r.1.done)

/-- C1: after every execute call, every scaffold entry other than thread and
frame maps to its originally registered value no matter what the fragment
did to the namespace, and thread and frame are then refreshed from the
currently selected thread and frame of the process (Python None when there
is no selected thread). -/
theorem execute_restores_scaffold_then_refreshes
    (frag : NS → FragOutcome) (st : PythonExecutorState) :
    (∀ name v, st.scaffold name = Option.some v → name ≠ "thread" → name ≠ "frame" →
      (execute frag st).1.ns name = Option.some v)
    ∧ (execute frag st).1.ns "thread" = Option.some (threadEntry st.process)
    ∧ (execute frag st).1.ns "frame" = Option.some (frameEntry st.process) := by
  have hmain : ∀ ns : NS,
      (∀ name v, st.scaffold name = Option.some v → name ≠ "thread" → name ≠ "frame" →
        (refresh (_restore_scaffold { st with ns := ns })).ns name = Option.some v)
      ∧ (refresh (_restore_scaffold { st with ns := ns })).ns "thread"
          = Option.some (threadEntry st.process)
      ∧ (refresh (_restore_scaffold { st with ns := ns })).ns "frame"
          = Option.some (frameEntry st.process) := by
    intro ns
    refine ⟨?_, ?_, ?_⟩
    · intro name v hv hthread hframe
      simp [refresh, _restore_scaffold, hthread, hframe, hv]
    · simp [refresh, _restore_scaffold]
    · simp [refresh, _restore_scaffold]
  unfold execute
  cases h : frag st.ns with
  | normal ns out err => simpa [h] using hmain ns
  | raised ns out err tb => simpa [h] using hmain ns

/-- Witness for C1: on a concrete state whose fragment rebinds the scaffold
name json and the refreshed names, execute restores json and rewrites
thread and frame from the process. -/
theorem execute_restores_scaffold_then_refreshes_witness :
    (execute
      (fun _ => FragOutcome.normal
        (fun k => if k = "json" then Option.some (PyVal.obj 7)
                  else if k = "thread" then Option.some (PyVal.obj 8) else Option.none)
        "" "")
      { ns := fun k => if k = "json" then Option.some (PyVal.obj 1) else Option.none,
        scaffold := fun k => if k = "json" then Option.some (PyVal.obj 1) else Option.none,
        process := { selectedThread := Option.some { selectedFrame := PyVal.obj 2 } } }).1.ns "json"
      = Option.some (PyVal.obj 1) := by
  exact (execute_restores_scaffold_then_refreshes _ _).1 "json" (PyVal.obj 1)
    (by decide) (by decide) (by decide)

/-- C7: an error raised by the fragment is caught inside execute: the call
returns normally with success false and the traceback appended to the
captured stderr (then truncated at the output cap). -/
theorem execute_catches_fragment_errors
    (frag : NS → FragOutcome) (st : PythonExecutorState)
    (ns : NS) (out err tb : String)
    (h : frag st.ns = FragOutcome.raised ns out err tb) :
    (execute frag st).2.2.2 = false
    ∧ (execute frag st).2.2.1 = _truncate (err ++ tb) := by
  unfold execute
  rw [h]
  exact ⟨rfl, rfl⟩

/-- Witness for C7: a concrete raising fragment yields success false and the
traceback as stderr. -/
theorem execute_catches_fragment_errors_witness :
    (execute (fun _ => FragOutcome.raised (fun _ => Option.none) "" ""
        "Traceback (most recent call last): ValueError")
      { ns := fun _ => Option.none, scaffold := fun _ => Option.none,
        process := { selectedThread := Option.none } }).2.2.2 = false := by
  exact (execute_catches_fragment_errors _ _ _ _ _ _ rfl).1

/-- C10: a REPL code block is recorded as successful exactly when its
captured stderr strips to the empty string or the block raised the done or
final-value signal; stderr output alone marks it failed, a signal marks it
successful regardless of stderr. -/
theorem repl_block_success_iff
    (frag : NS → ReplFragOutcome) (st : REPLState) (h : st.done = false) :
    (REPLAgent._execute frag st).2.2.2 = true ↔
      (pyStrip (REPLAgent._execute frag st).2.2.1 = ""
        ∨ raisesSignal (frag st.exec.ns) = true) := by
  unfold REPLAgent._execute _execute_sync
  cases hf : frag st.exec.ns with
  | normal ns out err => simp [raisesSignal, h]
  | doneSignal ns out err r => simp [raisesSignal]
  | finalVarSignal ns out err name v => simp [raisesSignal]
  | raised ns out err tb => simp [raisesSignal, h]

/-- Witness for C10: a block that writes to stderr and raises no signal is
recorded as failed. -/
theorem repl_block_success_iff_witness :
    (REPLAgent._execute
      (fun _ => ReplFragOutcome.normal (fun _ => Option.none) "" "warning: boom")
      { exec := { ns := fun _ => Option.none, scaffold := fun _ => Option.none,
                  process := { selectedThread := Option.none } },
        done := false, result := "", lastFinalVar := Option.none,
        codeBlocksExecuted := 0 }).2.2.2 = false := by
  have h := repl_block_success_iff
    (fun _ => ReplFragOutcome.normal (fun _ => Option.none) "" "warning: boom")
    { exec := { ns := fun _ => Option.none, scaffold := fun _ => Option.none,
                process := { selectedThread := Option.none } },
      done := false, result := "", lastFinalVar := Option.none,
      codeBlocksExecuted := 0 } rfl
  revert h
  decide

/-- C9 counterexample scaffolding: the executor state after injecting a
custom tool named helper. -/
def injectCexState : PythonExecutorState :=
  (inject_tools [("helper", ToolSpec.plain (PyVal.obj 0))]
    { ns := fun _ => Option.none, scaffold := fun _ => Option.none,
      process := { selectedThread := Option.none } }).1

/-- C9 counterexample: helper is a current scaffold name (added by an
earlier tool injection), yet injecting another tool named helper is not
rejected: it returns successfully and rebinds the scaffold entry. -/
theorem inject_tools_shadows_injected_scaffold_names :
    injectCexState.scaffold "helper" = Option.some (PyVal.obj 0)
    ∧ (inject_tools [("helper", ToolSpec.plain (PyVal.obj 1))] injectCexState).2
        = Except.ok [("helper", "")]
    ∧ (inject_tools [("helper", ToolSpec.plain (PyVal.obj 1))]
        injectCexState).1.scaffold "helper" = Option.some (PyVal.obj 1) := by
  exact ⟨rfl, rfl, rfl⟩

/-- C9 amended: a tool whose name lies in the fixed forbidden set
(RESERVED_NAMES union REPL_SCAFFOLD_NAMES) is rejected with an error, and
tool injection never rebinds any name of that fixed set — but only that
fixed set is checked, so previously added scaffold entries may be shadowed
(see the counterexample). -/
theorem inject_tools_reserved_protection
    (tools : List (String × ToolSpec)) (st : PythonExecutorState) :
    (∀ n, (n ∈ RESERVED_NAMES ∨ n ∈ REPL_SCAFFOLD_NAMES) →
      (inject_tools tools st).1.ns n = st.ns n
      ∧ (inject_tools tools st).1.scaffold n = st.scaffold n)
    ∧ ((∃ t ∈ tools, t.1 ∈ RESERVED_NAMES ∨ t.1 ∈ REPL_SCAFFOLD_NAMES) ↔
        ∃ e, (inject_tools tools st).2 = Except.error e) := by
  induction tools generalizing st with
  | nil =>
      refine ⟨fun n _ => ⟨rfl, rfl⟩, ?_⟩
      simp [inject_tools]
  | cons t rest ih =>
      obtain ⟨name, spec⟩ := t
      by_cases hf : name ∈ RESERVED_NAMES ∨ name ∈ REPL_SCAFFOLD_NAMES
      · refine ⟨fun n hn => ?_, ?_⟩
        · simp [inject_tools, if_pos hf]
        · simp only [inject_tools, if_pos hf]
          constructor
          · intro _
            exact ⟨_, rfl⟩
          · intro _
            exact ⟨(name, spec), List.mem_cons_self _ _, hf⟩
      · have hne : ∀ n, (n ∈ RESERVED_NAMES ∨ n ∈ REPL_SCAFFOLD_NAMES) → ¬ n = name := by
          intro n hn heq
          exact hf (heq ▸ hn)
        have ih' := ih (update_scaffold name (toolValue spec) st)
        refine ⟨fun n hn => ?_, ?_⟩
        · have hns : (update_scaffold name (toolValue spec) st).ns n = st.ns n := by
            simp [update_scaffold, hne n hn]
          have hsc : (update_scaffold name (toolValue spec) st).scaffold n
              = st.scaffold n := by
            simp [update_scaffold, hne n hn]
          have h1 := (ih'.1 n hn).1
          have h2 := (ih'.1 n hn).2
          simp only [inject_tools, if_neg hf]
          cases hrec : inject_tools rest (update_scaffold name (toolValue spec) st) with
          | mk st'' exc =>
            rw [hrec] at h1 h2
            cases exc with
            | ok ds => exact ⟨by rw [← hns, ← h1], by rw [← hsc, ← h2]⟩
            | error e => exact ⟨by rw [← hns, ← h1], by rw [← hsc, ← h2]⟩
        · have hiff := ih'.2
          simp only [inject_tools, if_neg hf]
          cases hrec : inject_tools rest (update_scaffold name (toolValue spec) st) with
          | mk st'' exc =>
            rw [hrec] at hiff
            constructor
            · intro hex
              obtain ⟨u, hu, hforb⟩ := hex
              rcases List.mem_cons.mp hu with heq | hmem
              · rw [heq] at hforb
                exact absurd hforb hf
              · obtain ⟨e, he⟩ := hiff.mp ⟨u, hmem, hforb⟩
                cases exc with
                | ok ds => exact absurd he (by simp)
                | error e0 => exact ⟨e0, rfl⟩
            · intro hex
              obtain ⟨e, he⟩ := hex
              cases exc with
              | ok ds => exact absurd he (by simp)
              | error e0 =>
                obtain ⟨u, hu, hforb⟩ := hiff.mpr ⟨e0, rfl⟩
                exact ⟨u, List.mem_cons_of_mem _ hu, hforb⟩

/-- Witness for C9 amended: injecting a tool named process (a reserved
name) fails, and the reserved binding is untouched. -/
theorem inject_tools_reserved_protection_witness :
    (∃ e, (inject_tools [("process", ToolSpec.plain (PyVal.obj 3))]
      injectCexState).2 = Except.error e) := by
  exact (inject_tools_reserved_protection
      [("process", ToolSpec.plain (PyVal.obj 3))] injectCexState).2.mp
    ⟨("process", ToolSpec.plain (PyVal.obj 3)), by decide, by decide⟩

/-- A debugging action from a translate response (types/actions.py). -/
structure Action where
  command : String
  code : String
  description : String
deriving DecidableEq, Repr

/-- Result of an act call (types/actions.py). -/
structure ActResult where
  success : Bool
  message : String
  actions : List Action
  output : String
deriving DecidableEq, Repr

/-- A structured translation response (types/llm.py). -/
structure TranslateResponse where
  actions : List Action
  code : String
  reasoning : String
deriving DecidableEq, Repr

/-- Python repr of a string as interpolated by an f-string (quotes added). -/
def pyReprStr (s : String) : String := squote ++ s ++ squote

/-- ActHandler._get_code: prefer the top-level code field, else join code
(or wrapped legacy command) fields from the individual actions. -/
def _get_code (response : TranslateResponse) : String :=
  if response.code ≠ "" then response.code
  else String.intercalate "\n" (response.actions.filterMap (fun action =>
    if action.code ≠ "" then Option.some action.code
    else if action.command ≠ "" then
      Option.some ("print(debugger.execute_command(" ++ pyReprStr action.command
        ++ ").output)")
    else Option.none))

/-- The stdout/stderr combination act performs before reporting output. -/
def combineOutput (stdout stderr : String) : String :=
  if stderr ≠ "" then
    (if stdout ≠ "" then pyStrip (stdout ++ "\n" ++ stderr) else stderr)
  else stdout

/-- ActHandler._cache_key: hash of instruction, context text and the
purpose act, truncated to 16 characters.  The hash function (SHA-256 hex in
the source) is an explicit parameter; the claims use only that it is a
function. -/
def ActHandler.cache_key (hash : String → String)
    (instruction context_text : String) : String :=
  strTake (hash (instruction ++ "\n" ++ context_text ++ "\nact")) 16

/-- Oracles for one act call: the successive translate-engine responses,
the successive executor outcomes (stdout, stderr, succeeded), and the
successive rendered context texts, each indexed by how many such calls have
already happened. -/
structure ActEnv where
  translations : Nat → TranslateResponse
  execs : Nat → String × String × Bool
  contexts : Nat → String

/-- Counters of external effects made by an act call: translate calls,
executor runs, snapshots built. -/
structure ActCounters where
  t : Nat
  e : Nat
  c : Nat
deriving DecidableEq, Repr

/-- The act-result cache: content key to stored act result. -/
def ActCache : Type := String → Option ActResult

/-- ContentCache.set_by_key on an optional cache (None means disabled). -/
def cacheSet (cache : Option ActCache) (key : String) (r : ActResult) :
    Option ActCache :=
  match cache with
  | Option.some c => Option.some (fun k => if k = key then Option.some r else c k)
  | Option.none => Option.none

/-- ContentCache.get_by_key on an optional cache. -/
def cacheGet (cache : Option ActCache) (key : String) : Option ActResult :=
  match cache with
  | Option.some c => c key
  | Option.none => Option.none

/-- ActHandler._try_heal: retry loop over the remaining attempts.  Each
attempt re-snapshots, translates again, skips execution when no code came
back, and returns the annotated healed result on the first successful
execution. -/
def _try_heal (env : ActEnv) : Nat → Nat → ActCounters →
    Option ActResult × ActCounters
  | 0, _, k => (Option.none, k)
  | fuel + 1, attempt, k =>
      if _get_code (env.translations k.t) = "" then
        _try_heal env fuel (attempt + 1) { t := k.t + 1, e := k.e, c := k.c + 1 }
      else if (env.execs k.e).2.2 then
        (Option.some
          { success := true,
            message := "Healed on attempt " ++ toString (attempt + 1) ++ ": "
              ++ (env.translations k.t).reasoning,
            actions := (env.translations k.t).actions,
            output := combineOutput (env.execs k.e).1 (env.execs k.e).2.1 },
         { t := k.t + 1, e := k.e + 1, c := k.c + 1 })
      else _try_heal env fuel (attempt + 1) { t := k.t + 1, e := k.e + 1, c := k.c + 1 }

/-- The cache-miss path of ActHandler.act: translate, resolve code, fail
when none, execute, heal on failure when enabled, and cache exactly the
successful (possibly healed) result. -/
def act_main (env : ActEnv) (cache : Option ActCache)
    (self_heal : Bool) (max_retries : Nat) (key : String) :
    ActResult × Option ActCache × ActCounters :=
  if _get_code (env.translations 0) = "" then
    ({ success := false, message := "No code generated from instruction",
       actions := (env.translations 0).actions, output := "" },
     cache, { t := 1, e := 0, c := 1 })
  else if !(env.execs 0).2.2 && self_heal then
    match _try_heal env max_retries 0 { t := 1, e := 1, c := 1 } with
    | (Option.some healed, k3) => (healed, cacheSet cache key healed, k3)
    | (Option.none, k3) =>
        ({ success := (env.execs 0).2.2, message := (env.translations 0).reasoning,
           actions := (env.translations 0).actions,
           output := combineOutput (env.execs 0).1 (env.execs 0).2.1 }, cache, k3)
  else
    ({ success := (env.execs 0).2.2, message := (env.translations 0).reasoning,
       actions := (env.translations 0).actions,
       output := combineOutput (env.execs 0).1 (env.execs 0).2.1 },
     if (env.execs 0).2.2 then
       cacheSet cache key
         { success := (env.execs 0).2.2, message := (env.translations 0).reasoning,
           actions := (env.translations 0).actions,
           output := combineOutput (env.execs 0).1 (env.execs 0).2.1 }
     else cache,
     { t := 1, e := 1, c := 1 })

/-- ActHandler.act: build the context, consult the enabled cache first and
return a hit unchanged; on a miss run the main pipeline. -/
def act (hash : String → String) (env : ActEnv) (cache : Option ActCache)
    (self_heal : Bool) (max_retries : Nat) (instruction : String) :
    ActResult × Option ActCache × ActCounters :=
  match cache with
  | Option.some c =>
      match c (ActHandler.cache_key hash instruction (env.contexts 0)) with
      | Option.some cached => (cached, Option.some c, { t := 0, e := 0, c := 1 })
      | Option.none =>
          act_main env (Option.some c) self_heal max_retries
            (ActHandler.cache_key hash instruction (env.contexts 0))
  | Option.none =>
      act_main env Option.none self_heal max_retries
        (ActHandler.cache_key hash instruction (env.contexts 0))

/-- Helper: a healed result returned by the retry loop is always marked
successful and its message is annotated with the attempt number. -/
theorem _try_heal_some (env : ActEnv) (fuel : Nat) :
    ∀ (attempt : Nat) (k : ActCounters) (r : ActResult),
    (_try_heal env fuel attempt k).1 = Option.some r →
    r.success = true ∧ ∃ i, attempt ≤ i ∧ i < attempt + fuel ∧
      r.message = "Healed on attempt " ++ toString (i + 1) ++ ": "
        ++ (env.translations (k.t + (i - attempt))).reasoning := by
  induction fuel with
  | zero => intro attempt k r h; simp [_try_heal] at h
  | succ n ih =>
      intro attempt k r h
      unfold _try_heal at h
      by_cases hc : _get_code (env.translations k.t) = ""
      · rw [if_pos hc] at h
        obtain ⟨hs, i, h1, h2, h3⟩ := ih (attempt + 1) _ r h
        refine ⟨hs, i, by omega, by omega, ?_⟩
        have harith : k.t + 1 + (i - (attempt + 1)) = k.t + (i - attempt) := by omega
        simpa [harith] using h3
      · rw [if_neg hc] at h
        by_cases hx : (env.execs k.e).2.2 = true
        · rw [if_pos hx] at h
          dsimp only at h
          obtain rfl := Option.some.inj h
          refine ⟨rfl, attempt, le_refl _, by omega, ?_⟩
          simp
        · rw [if_neg hx] at h
          obtain ⟨hs, i, h1, h2, h3⟩ := ih (attempt + 1) _ r h
          refine ⟨hs, i, by omega, by omega, ?_⟩
          have harith : k.t + 1 + (i - (attempt + 1)) = k.t + (i - attempt) := by omega
          simpa [harith] using h3

/-- Helper: on a cache miss act delegates to the main pipeline. -/
theorem act_miss (hash : String → String) (env : ActEnv) (c : ActCache)
    (self_heal : Bool) (max_retries : Nat) (instruction : String)
    (h : c (ActHandler.cache_key hash instruction (env.contexts 0)) = Option.none) :
    act hash env (Option.some c) self_heal max_retries instruction
      = act_main env (Option.some c) self_heal max_retries
          (ActHandler.cache_key hash instruction (env.contexts 0)) := by
  unfold act
  dsimp only
  rw [h]

/-- C2: with an enabled cache, an act hit returns the stored result with no
model call and no execution and leaves the cache unchanged; on a miss, an
entry under the (instruction, context, act) key exists after the call if
and only if the call returned success. -/
theorem act_cache_success_iff (hash : String → String) (env : ActEnv)
    (c : ActCache) (self_heal : Bool) (max_retries : Nat) (instruction : String) :
    (∀ r, c (ActHandler.cache_key hash instruction (env.contexts 0)) = Option.some r →
      act hash env (Option.some c) self_heal max_retries instruction
        = (r, Option.some c, { t := 0, e := 0, c := 1 }))
    ∧ (c (ActHandler.cache_key hash instruction (env.contexts 0)) = Option.none →
      ((act hash env (Option.some c) self_heal max_retries instruction).1.success = true
        ↔ (cacheGet
            (act hash env (Option.some c) self_heal max_retries instruction).2.1
            (ActHandler.cache_key hash instruction (env.contexts 0))).isSome = true)) := by
  constructor
  · intro r hr
    unfold act
    dsimp only
    rw [hr]
  · intro hmiss
    rw [act_miss hash env c self_heal max_retries instruction hmiss]
    unfold act_main
    by_cases hcode : _get_code (env.translations 0) = ""
    · rw [if_pos hcode]
      simp [cacheGet, hmiss]
    · rw [if_neg hcode]
      by_cases hx : (env.execs 0).2.2 = true
      · simp [hx, cacheGet, cacheSet]
      · rw [Bool.not_eq_true] at hx
        cases hsh : self_heal with
        | false =>
            simp [hx, cacheGet, hmiss]
        | true =>
            simp only [hx, Bool.not_false, Bool.true_and, if_true]
            cases hheal : _try_heal env max_retries 0 { t := 1, e := 1, c := 1 } with
            | mk o k3 =>
              cases o with
              | some healed =>
                  have hsucc := (_try_heal_some env max_retries 0
                    { t := 1, e := 1, c := 1 } healed (by rw [hheal])).1
                  simp [hsucc, cacheGet, cacheSet]
              | none =>
                  simp [hx, cacheGet, hmiss]

/-- Witness for C2: a concrete hit returns the stored result unchanged with
zero model calls and zero executions. -/
theorem act_cache_success_iff_witness :
    act (fun s => s)
      { translations := fun _ => { actions := [], code := "print(1)", reasoning := "r" },
        execs := fun _ => ("", "", true), contexts := fun _ => "ctx" }
      (Option.some (fun _ => Option.some
        { success := true, message := "m", actions := [], output := "o" }))
      true 3 "i"
      = ({ success := true, message := "m", actions := [], output := "o" },
         Option.some (fun _ => Option.some
           { success := true, message := "m", actions := [], output := "o" }),
         { t := 0, e := 0, c := 1 }) := by
  exact (act_cache_success_iff (fun s => s)
      { translations := fun _ => { actions := [], code := "print(1)", reasoning := "r" },
        execs := fun _ => ("", "", true), contexts := fun _ => "ctx" }
      (fun _ => Option.some { success := true, message := "m", actions := [], output := "o" })
      true 3 "i").1
    { success := true, message := "m", actions := [], output := "o" } rfl

/-- C3: with healing enabled and a failed first execution, if the retry
loop finds a successful attempt then act returns that healed result — with
success true, a message annotated Healed on attempt N, and the healed
result cached; if every retry fails, act returns the original failure and
caches nothing.  In particular act never reports failure after a retry
succeeded. -/
theorem act_self_heal (hash : String → String) (env : ActEnv) (c : ActCache)
    (max_retries : Nat) (instruction : String)
    (hmiss : c (ActHandler.cache_key hash instruction (env.contexts 0)) = Option.none)
    (hcode : ¬ _get_code (env.translations 0) = "")
    (hfail : (env.execs 0).2.2 = false) :
    (∀ r, (_try_heal env max_retries 0 { t := 1, e := 1, c := 1 }).1 = Option.some r →
      act hash env (Option.some c) true max_retries instruction
        = (r, cacheSet (Option.some c)
            (ActHandler.cache_key hash instruction (env.contexts 0)) r,
           (_try_heal env max_retries 0 { t := 1, e := 1, c := 1 }).2)
      ∧ r.success = true
      ∧ ∃ i, i < max_retries ∧
          r.message = "Healed on attempt " ++ toString (i + 1) ++ ": "
            ++ (env.translations (1 + i)).reasoning)
    ∧ ((_try_heal env max_retries 0 { t := 1, e := 1, c := 1 }).1 = Option.none →
      (act hash env (Option.some c) true max_retries instruction).1
        = { success := false, message := (env.translations 0).reasoning,
            actions := (env.translations 0).actions,
            output := combineOutput (env.execs 0).1 (env.execs 0).2.1 }
      ∧ cacheGet (act hash env (Option.some c) true max_retries instruction).2.1
          (ActHandler.cache_key hash instruction (env.contexts 0)) = Option.none) := by
  rw [act_miss hash env c true max_retries instruction hmiss]
  unfold act_main
  rw [if_neg hcode]
  simp only [hfail, Bool.not_false, Bool.and_true, if_true]
  cases hheal : _try_heal env max_retries 0 { t := 1, e := 1, c := 1 } with
  | mk o k3 =>
    constructor
    · intro r hr
      dsimp only at hr
      subst hr
      obtain ⟨hs, i, h1, h2, h3⟩ := _try_heal_some env max_retries 0
        { t := 1, e := 1, c := 1 } r (by rw [hheal])
      refine ⟨rfl, hs, i, by omega, ?_⟩
      simpa using h3
    · intro hnone
      dsimp only at hnone
      subst hnone
      exact ⟨rfl, by simp [cacheGet, hmiss]⟩

/-- Witness for C3: a concrete run whose first execution fails and whose
first retry succeeds returns success with the Healed on attempt 1 message. -/
theorem act_self_heal_witness :
    (act (fun s => s)
      { translations := fun n => if n = 0
          then { actions := [], code := "x", reasoning := "r0" }
          else { actions := [], code := "y", reasoning := "r1" },
        execs := fun n => if n = 0 then ("", "boom", false) else ("ok", "", true),
        contexts := fun _ => "ctx" }
      (Option.some (fun _ => Option.none)) true 3 "i").1.success = true := by
  have h := (act_self_heal (fun s => s)
      { translations := fun n => if n = 0
          then { actions := [], code := "x", reasoning := "r0" }
          else { actions := [], code := "y", reasoning := "r1" },
        execs := fun n => if n = 0 then ("", "boom", false) else ("ok", "", true),
        contexts := fun _ => "ctx" }
      (fun _ => Option.none) 3 "i" rfl (by decide) rfl).1
      { success := true, message := "Healed on attempt 1: r1",
        actions := [], output := "ok" } rfl
  rw [h.1]

/-- TranslateEngine._cache_key: hash of the newline-joined parts,
truncated to 16 characters; the hash (SHA-256 hex in the source) is a
function parameter. -/
def TranslateEngine.cache_key (hash : String → String) (parts : List String) :
    String :=
  strTake (hash (String.intercalate "\n" parts)) 16

/-- Result of an observe operation (types/actions.py ObserveResult). -/
structure ObserveResult where
  actions : List Action
  description : String
deriving DecidableEq, Repr

/-- The raw chat content reaching _parse_observe_response, abstracted by
its parse outcome: either the substring between the first opening and last
closing brace is a JSON object (carrying the extracted action fields and
description), or no such object parses. -/
inductive RawContent where
  | jsonObject (actions : List Action) (description : String)
  | unparseable (text : String)
deriving DecidableEq, Repr

/-- TranslateEngine._parse_observe_response: build an ObserveResult from
parsed content, or fall back to the failure-describing empty result. -/
def _parse_observe_response : RawContent → ObserveResult
  | RawContent.jsonObject acts desc => { actions := acts, description := desc }
  | RawContent.unparseable _ =>
      { actions := [], description := "Failed to parse observation" }

/-- The observe cache: content key to stored observe result. -/
def ObserveCache : Type := String → Option ObserveResult

/-- ContentCache.set_by_key on an optional observe cache. -/
def observeCacheSet (cache : Option ObserveCache) (key : String)
    (r : ObserveResult) : Option ObserveCache :=
  match cache with
  | Option.some c => Option.some (fun k => if k = key then Option.some r else c k)
  | Option.none => Option.none

/-- ContentCache.get_by_key on an optional observe cache. -/
def observeCacheGet (cache : Option ObserveCache) (key : String) :
    Option ObserveResult :=
  match cache with
  | Option.some c => c key
  | Option.none => Option.none

/-- Oracles for one translate_observe call: the structured-chat outcome and
the raw-chat fallback outcome (each indexed by how many such calls have
already happened; errors model raised provider exceptions). -/
structure ObserveEnv where
  structuredResults : Nat → Except String ObserveResult
  chatResults : Nat → Except String RawContent

/-- The cache-miss path of TranslateEngine.translate_observe: try the
structured call; on a raised exception fall back to a raw chat parsed
permissively (a raw-chat exception propagates); store whatever result is
returned — the parse-failure fallback included — and return it, counting
the provider calls made. -/
def observe_main (env : ObserveEnv) (cache : Option ObserveCache) (key : String) :
    Except String ObserveResult × Option ObserveCache × Nat :=
  match env.structuredResults 0 with
  | Except.ok result => (Except.ok result, observeCacheSet cache key result, 1)
  | Except.error _ =>
      match env.chatResults 0 with
      | Except.error e => (Except.error e, cache, 2)
      | Except.ok raw =>
          (Except.ok (_parse_observe_response raw),
           observeCacheSet cache key (_parse_observe_response raw), 2)

/-- TranslateEngine.translate_observe: consult the enabled cache under the
hash of (context, instruction-or-empty, observe) and return a hit with no
provider call; on a miss run the main path. -/
def translate_observe (hash : String → String) (env : ObserveEnv)
    (cache : Option ObserveCache) (context_text : String)
    (instruction : Option String) :
    Except String ObserveResult × Option ObserveCache × Nat :=
  match cache with
  | Option.some c =>
      match c (TranslateEngine.cache_key hash
          [context_text, instruction.getD "", "observe"]) with
      | Option.some cached => (Except.ok cached, Option.some c, 0)
      | Option.none =>
          observe_main env (Option.some c)
            (TranslateEngine.cache_key hash
              [context_text, instruction.getD "", "observe"])
  | Option.none =>
      observe_main env Option.none
        (TranslateEngine.cache_key hash
          [context_text, instruction.getD "", "observe"])

/-- C2 counterexample oracles: the structured call raises and the raw chat
returns content with no parseable JSON object. -/
def observeCexEnv : ObserveEnv :=
  { structuredResults := fun _ => Except.error "schema validation failed",
    chatResults := fun _ => Except.ok (RawContent.unparseable "no json here") }

/-- C2 counterexample: with an enabled empty cache, an observe call whose
structured call raises and whose raw content does not parse returns the
parse-failure fallback ObserveResult — a failure converted to data, not a
successful outcome — yet a cache entry for its key exists after the call,
holding that fallback. -/
theorem observe_caches_parse_failure :
    (translate_observe (fun s => s) observeCexEnv
        (Option.some (fun _ => Option.none)) "ctx" Option.none).1
      = Except.ok { actions := [], description := "Failed to parse observation" }
    ∧ observeCacheGet
        (translate_observe (fun s => s) observeCexEnv
          (Option.some (fun _ => Option.none)) "ctx" Option.none).2.1
        (TranslateEngine.cache_key (fun s => s) ["ctx", "", "observe"])
      = Option.some { actions := [], description := "Failed to parse observation" } := by
  exact ⟨rfl, rfl⟩

/-- C2 amended: for act, a cache entry under the (instruction, context,
act) key exists after the call iff the call returned success, a hit
returning the stored result with no model call and no execution; for
observe, a hit likewise returns the stored result with no provider call,
but on a miss an entry is stored on every normal return — the
parse-failure fallback included — and exists after the call iff the call
returned without raising. -/
theorem cache_entry_iff_success (hash : String → String) (env : ActEnv)
    (oenv : ObserveEnv) (c : ActCache) (oc : ObserveCache)
    (self_heal : Bool) (max_retries : Nat) (instruction context_text : String)
    (obsInstruction : Option String) :
    (∀ r, c (ActHandler.cache_key hash instruction (env.contexts 0)) = Option.some r →
      act hash env (Option.some c) self_heal max_retries instruction
        = (r, Option.some c, { t := 0, e := 0, c := 1 }))
    ∧ (c (ActHandler.cache_key hash instruction (env.contexts 0)) = Option.none →
      ((act hash env (Option.some c) self_heal max_retries instruction).1.success = true
        ↔ (cacheGet
            (act hash env (Option.some c) self_heal max_retries instruction).2.1
            (ActHandler.cache_key hash instruction (env.contexts 0))).isSome = true))
    ∧ (∀ r, oc (TranslateEngine.cache_key hash
          [context_text, obsInstruction.getD "", "observe"]) = Option.some r →
      translate_observe hash oenv (Option.some oc) context_text obsInstruction
        = (Except.ok r, Option.some oc, 0))
    ∧ (oc (TranslateEngine.cache_key hash
          [context_text, obsInstruction.getD "", "observe"]) = Option.none →
      (∀ r, (translate_observe hash oenv (Option.some oc) context_text
            obsInstruction).1 = Except.ok r →
        observeCacheGet (translate_observe hash oenv (Option.some oc) context_text
            obsInstruction).2.1
          (TranslateEngine.cache_key hash
            [context_text, obsInstruction.getD "", "observe"]) = Option.some r)
      ∧ (∀ e, (translate_observe hash oenv (Option.some oc) context_text
            obsInstruction).1 = Except.error e →
        observeCacheGet (translate_observe hash oenv (Option.some oc) context_text
            obsInstruction).2.1
          (TranslateEngine.cache_key hash
            [context_text, obsInstruction.getD "", "observe"]) = Option.none)) := by
  refine ⟨(act_cache_success_iff hash env c self_heal max_retries instruction).1,
    (act_cache_success_iff hash env c self_heal max_retries instruction).2, ?_, ?_⟩
  · intro r hr
    unfold translate_observe
    dsimp only
    rw [hr]
  · intro hmiss
    unfold translate_observe
    dsimp only
    rw [hmiss]
    unfold observe_main
    cases hs : oenv.structuredResults 0 with
    | ok result =>
        constructor
        · intro r hr
          dsimp only at hr
          obtain rfl := Except.ok.inj hr
          simp [observeCacheGet, observeCacheSet]
        · intro e he
          dsimp only at he
          exact absurd he (by simp)
    | error e0 =>
        cases hc : oenv.chatResults 0 with
        | ok raw =>
            constructor
            · intro r hr
              dsimp only at hr
              obtain rfl := Except.ok.inj hr
              simp [observeCacheGet, observeCacheSet]
            · intro e he
              dsimp only at he
              exact absurd he (by simp)
        | error e1 =>
            constructor
            · intro r hr
              dsimp only at hr
              exact absurd hr (by simp)
            · intro e he
              simp [observeCacheGet, hmiss]

/-- Witness for C2 amended: a concrete observe hit returns the stored
result with zero provider calls, and a concrete act hit returns the stored
result with zero model calls and zero executions. -/
theorem cache_entry_iff_success_witness :
    translate_observe (fun s => s) observeCexEnv
        (Option.some (fun _ => Option.some { actions := [], description := "ok" }))
        "ctx" Option.none
      = (Except.ok { actions := [], description := "ok" },
         Option.some (fun _ => Option.some { actions := [], description := "ok" }), 0)
    ∧ act (fun s => s)
        { translations := fun _ => { actions := [], code := "print(1)", reasoning := "r" },
          execs := fun _ => ("", "", true), contexts := fun _ => "ctx" }
        (Option.some (fun _ => Option.some
          { success := true, message := "m", actions := [], output := "o" }))
        true 3 "i"
      = ({ success := true, message := "m", actions := [], output := "o" },
         Option.some (fun _ => Option.some
           { success := true, message := "m", actions := [], output := "o" }),
         { t := 0, e := 0, c := 1 }) := by
  constructor
  · exact (cache_entry_iff_success (fun s => s)
      { translations := fun _ => { actions := [], code := "print(1)", reasoning := "r" },
        execs := fun _ => ("", "", true), contexts := fun _ => "ctx" }
      observeCexEnv
      (fun _ => Option.some { success := true, message := "m", actions := [], output := "o" })
      (fun _ => Option.some { actions := [], description := "ok" })
      true 3 "i" "ctx" Option.none).2.2.1
      { actions := [], description := "ok" } rfl
  · exact (cache_entry_iff_success (fun s => s)
      { translations := fun _ => { actions := [], code := "print(1)", reasoning := "r" },
        execs := fun _ => ("", "", true), contexts := fun _ => "ctx" }
      observeCexEnv
      (fun _ => Option.some { success := true, message := "m", actions := [], output := "o" })
      (fun _ => Option.some { actions := [], description := "ok" })
      true 3 "i" "ctx" Option.none).1
      { success := true, message := "m", actions := [], output := "o" } rfl

/-- Failure modes of the REPL sub-query helpers. -/
inductive QueryErr where
  | budgetExceeded
  | batchTooLarge
  | timedOut
deriving DecidableEq, Repr

/-- The batch-size cap of llm_query_batched. -/
def _MAX_BATCH_SIZE : Nat := 5

/-- The counter logic of llm_query: refuse when the budget is already
consumed, fail without counting on a timeout, else count one completed
sub-query. -/
def llm_query_step (budget counter : Nat) (timedOut : Bool) : Except QueryErr Nat :=
  if budget ≤ counter then Except.error QueryErr.budgetExceeded
  else if timedOut then Except.error QueryErr.timedOut
  else Except.ok (counter + 1)

/-- The counter logic of llm_query_batched: refuse oversized batches,
refuse when the batch would pass the budget, fail without counting on a
timeout, else count all completed sub-queries of the batch at once. -/
def llm_query_batched_step (budget counter numPrompts : Nat) (timedOut : Bool) :
    Except QueryErr Nat :=
  if _MAX_BATCH_SIZE < numPrompts then Except.error QueryErr.batchTooLarge
  else if budget < counter + numPrompts then Except.error QueryErr.budgetExceeded
  else if timedOut then Except.error QueryErr.timedOut
  else Except.ok (counter + numPrompts)

/-- One sub-query call made during an iteration. -/
inductive QueryOp where
  | single (timedOut : Bool)
  | batched (numPrompts : Nat) (timedOut : Bool)
deriving DecidableEq, Repr

/-- The per-iteration counter after one call: a raised error leaves the
counter untouched. -/
def applyQueryOp (budget counter : Nat) : QueryOp → Nat
  | QueryOp.single t =>
      match llm_query_step budget counter t with
      | Except.ok c => c
      | Except.error _ => counter
  | QueryOp.batched n t =>
      match llm_query_batched_step budget counter n t with
      | Except.ok c => c
      | Except.error _ => counter

/-- The counter over one REPL iteration: reset to zero at the start (run
resets _llm_query_calls_this_iteration each step), then updated by every
sub-query call in order. -/
def runIterationOps (budget : Nat) (ops : List QueryOp) : Nat :=
  ops.foldl (applyQueryOp budget) 0

/-- Helper: one sub-query call keeps the completed count within budget. -/
theorem applyQueryOp_le (budget counter : Nat) (op : QueryOp)
    (h : counter ≤ budget) : applyQueryOp budget counter op ≤ budget := by
  cases op with
  | single t =>
      simp only [applyQueryOp, llm_query_step]
      by_cases hb : budget ≤ counter
      · rw [if_pos hb]
        exact h
      · rw [if_neg hb]
        cases t with
        | true => simpa using h
        | false => simpa using by omega
  | batched n t =>
      simp only [applyQueryOp, llm_query_batched_step]
      by_cases h5 : _MAX_BATCH_SIZE < n
      · rw [if_pos h5]
        exact h
      · rw [if_neg h5]
        by_cases hb : budget < counter + n
        · rw [if_pos hb]
          exact h
        · rw [if_neg hb]
          cases t with
          | true => simpa using h
          | false => simpa using by omega

/-- C5: in any single REPL iteration the completed sub-query count starts
at zero and never exceeds the budget; a single llm_query raises budget
exceeded exactly when completing it would pass the limit; a batch of K
prompts either increments the counter by exactly K (staying within budget)
or fails before dispatch whenever the current count plus K would pass the
budget. -/
theorem llm_query_budget_invariant (budget : Nat) :
    (∀ ops, runIterationOps budget ops ≤ budget)
    ∧ (∀ counter t, llm_query_step budget counter t = Except.error QueryErr.budgetExceeded
        ↔ budget < counter + 1)
    ∧ (∀ counter numPrompts t c,
        llm_query_batched_step budget counter numPrompts t = Except.ok c →
          c = counter + numPrompts ∧ counter + numPrompts ≤ budget)
    ∧ (∀ counter numPrompts t, budget < counter + numPrompts →
        ∃ e, llm_query_batched_step budget counter numPrompts t = Except.error e) := by
  refine ⟨?_, ?_, ?_, ?_⟩
  · intro ops
    unfold runIterationOps
    have hgen : ∀ (l : List QueryOp) (counter : Nat), counter ≤ budget →
        l.foldl (applyQueryOp budget) counter ≤ budget := by
      intro l
      induction l with
      | nil => intro counter h; simpa using h
      | cons op rest ih =>
          intro counter h
          exact ih _ (applyQueryOp_le budget counter op h)
    exact hgen ops 0 (Nat.zero_le _)
  · intro counter t
    unfold llm_query_step
    by_cases hb : budget ≤ counter
    · rw [if_pos hb]
      simp
      omega
    · rw [if_neg hb]
      cases t with
      | true => simp; omega
      | false => simp; omega
  · intro counter numPrompts t c h
    unfold llm_query_batched_step at h
    by_cases h5 : _MAX_BATCH_SIZE < numPrompts
    · rw [if_pos h5] at h
      exact absurd h (by simp)
    · rw [if_neg h5] at h
      by_cases hb : budget < counter + numPrompts
      · rw [if_pos hb] at h
        exact absurd h (by simp)
      · rw [if_neg hb] at h
        cases t with
        | true => exact absurd h (by simp)
        | false =>
            simp at h
            exact ⟨h.symm, by omega⟩
  · intro counter numPrompts t h
    unfold llm_query_batched_step
    by_cases h5 : _MAX_BATCH_SIZE < numPrompts
    · rw [if_pos h5]
      exact ⟨QueryErr.batchTooLarge, rfl⟩
    · rw [if_neg h5, if_pos h]
      exact ⟨QueryErr.budgetExceeded, rfl⟩

/-- Witness for C5: with the default budget of five, a full iteration of
mixed calls stays at five and an oversized single call fails. -/
theorem llm_query_budget_invariant_witness :
    runIterationOps 5 [QueryOp.batched 3 false, QueryOp.single false,
      QueryOp.batched 2 false, QueryOp.single false] ≤ 5
    ∧ llm_query_step 5 5 false = Except.error QueryErr.budgetExceeded := by
  refine ⟨(llm_query_budget_invariant 5).1 _, ?_⟩
  exact ((llm_query_budget_invariant 5).2.1 5 false).mpr (by omega)

/-- A tool call requested by the model (llm/types.py ToolCall); arguments
kept as an opaque rendering. -/
structure MToolCall where
  id : String
  name : String
  arguments : String
deriving DecidableEq, Repr

/-- Chat roles (llm/types.py ChatMessage.role). -/
inductive Role where
  | system
  | user
  | assistant
  | tool
deriving DecidableEq, Repr

/-- A chat message (llm/types.py ChatMessage). -/
structure MChatMessage where
  role : Role
  content : String
  tool_calls : Option (List MToolCall)
  tool_call_id : Option String
deriving DecidableEq, Repr

/-- One model response in the tool loop (llm/types.py LLMResponse): text
plus requested tool calls, the empty list standing for none. -/
structure AgentResponse where
  content : String
  tool_calls : List MToolCall
deriving DecidableEq, Repr

/-- AgentHandler.run_stream, restricted to its conversation bookkeeping:
for each model response, either execute the tool calls — stopping before
any append when done was called — and append one assistant message carrying
all the calls, then one tool-result message per call id in order, then the
refreshed-context user message; or, with no tool calls, append the
assistant text and a nudge user message. -/
def run_stream (execTool : MToolCall → String) (ctxs : Nat → String) :
    Nat → List AgentResponse → List MChatMessage → List MChatMessage
  | _, [], msgs => msgs
  | step, resp :: rest, msgs =>
      if resp.tool_calls ≠ [] then
        if resp.tool_calls.any (fun tc => tc.name = "done") then msgs
        else
          run_stream execTool ctxs (step + 1) rest
            (msgs
              ++ [{ role := Role.assistant, content := resp.content,
                    tool_calls := Option.some resp.tool_calls,
                    tool_call_id := Option.none }]
              ++ resp.tool_calls.map (fun tc =>
                  { role := Role.tool, content := execTool tc,
                    tool_calls := Option.none, tool_call_id := Option.some tc.id })
              ++ [{ role := Role.user,
                    content := "Updated process state:\n" ++ ctxs step,
                    tool_calls := Option.none, tool_call_id := Option.none }])
      else
        run_stream execTool ctxs (step + 1) rest
          (msgs
            ++ [{ role := Role.assistant, content := resp.content,
                  tool_calls := Option.none, tool_call_id := Option.none },
                { role := Role.user,
                  content := "Continue with the task. Use tools to make progress.",
                  tool_calls := Option.none, tool_call_id := Option.none }])

/-- The initial conversation of run_stream: system prompt plus the first
process-state user message. -/
def run_stream_initial (systemPrompt ctx0 : String) : List MChatMessage :=
  [{ role := Role.system, content := systemPrompt,
     tool_calls := Option.none, tool_call_id := Option.none },
   { role := Role.user,
     content := "Current process state:\n" ++ ctx0 ++ "\n\nBegin working on the task.",
     tool_calls := Option.none, tool_call_id := Option.none }]

/-- Whether the messages right after an assistant message are exactly its
tool results: one tool-role message per call, ids in order. -/
def resultsMatch : List MToolCall → List MChatMessage → Bool
  | [], _ => true
  | _ :: _, [] => false
  | tc :: tcs, m :: ms =>
      (m.role = Role.tool : Bool) && (m.tool_call_id = Option.some tc.id : Bool)
        && resultsMatch tcs ms

/-- The C6 conversation invariant: every assistant message carrying tool
calls is immediately followed by exactly its tool results, in call order,
before anything else. -/
def conversationWF : List MChatMessage → Bool
  | [] => true
  | m :: rest =>
      (if m.role = Role.assistant then resultsMatch (m.tool_calls.getD []) rest
       else true) && conversationWF rest

/-- Helper: a matched result block stays matched when the conversation is
extended at the end. -/
theorem resultsMatch_append (tcs : List MToolCall) (ms ex : List MChatMessage)
    (h : resultsMatch tcs ms = true) : resultsMatch tcs (ms ++ ex) = true := by
  induction tcs generalizing ms with
  | nil => simp [resultsMatch]
  | cons tc tcs ih =>
      cases ms with
      | nil => simp [resultsMatch] at h
      | cons m ms =>
          simp only [resultsMatch, Bool.and_eq_true] at h
          simp only [List.cons_append, resultsMatch, Bool.and_eq_true]
          exact ⟨h.1, ih ms h.2⟩

/-- Helper: the invariant is preserved by appending an internally
well-formed block. -/
theorem conversationWF_append (l ex : List MChatMessage)
    (hl : conversationWF l = true) (hex : conversationWF ex = true) :
    conversationWF (l ++ ex) = true := by
  induction l with
  | nil => simpa using hex
  | cons m rest ih =>
      simp only [conversationWF, Bool.and_eq_true] at hl
      simp only [List.cons_append, conversationWF, Bool.and_eq_true]
      refine ⟨?_, ih hl.2⟩
      by_cases hr : m.role = Role.assistant
      · rw [if_pos hr] at hl ⊢
        exact resultsMatch_append _ _ _ hl.1
      · rw [if_neg hr]

/-- Helper: a tool-result block built from the calls matches them. -/
theorem resultsMatch_mk (execTool : MToolCall → String) (tcs : List MToolCall)
    (ex : List MChatMessage) :
    resultsMatch tcs ((tcs.map (fun tc =>
      { role := Role.tool, content := execTool tc,
        tool_calls := Option.none, tool_call_id := Option.some tc.id })) ++ ex)
      = true := by
  induction tcs with
  | nil => simp [resultsMatch]
  | cons tc tcs ih =>
      simp only [List.map_cons, List.cons_append, resultsMatch, Bool.and_eq_true]
      exact ⟨by simp, ih⟩

/-- Helper: a block with no assistant message satisfies the invariant. -/
theorem conversationWF_no_assistant (l : List MChatMessage)
    (h : ∀ m ∈ l, ¬ m.role = Role.assistant) : conversationWF l = true := by
  induction l with
  | nil => rfl
  | cons m rest ih =>
      simp only [conversationWF, Bool.and_eq_true]
      refine ⟨?_, ih (fun x hx => h x (List.mem_cons_of_mem _ hx))⟩
      rw [if_neg (h m (List.mem_cons_self _ _))]

/-- C6: however the model responds, the conversation the tool-loop agent
builds satisfies the invariant: each appended assistant message carrying N
tool calls is followed by exactly N tool-result messages whose ids, in
order, are the ids of its calls, with no other assistant message in
between. -/
theorem run_stream_conversation_wf (execTool : MToolCall → String)
    (ctxs : Nat → String) (systemPrompt ctx0 : String)
    (responses : List AgentResponse) (step : Nat) :
    conversationWF (run_stream execTool ctxs step responses
      (run_stream_initial systemPrompt ctx0)) = true := by
  have hgen : ∀ (rs : List AgentResponse) (step : Nat) (msgs : List MChatMessage),
      conversationWF msgs = true →
      conversationWF (run_stream execTool ctxs step rs msgs) = true := by
    intro rs
    induction rs with
    | nil => intro step msgs h; simpa [run_stream] using h
    | cons resp rest ih =>
        intro step msgs h
        unfold run_stream
        by_cases hne : resp.tool_calls ≠ []
        · rw [if_pos hne]
          by_cases hdone : resp.tool_calls.any (fun tc => tc.name = "done") = true
          · rw [if_pos hdone]
            exact h
          · rw [if_neg hdone]
            apply ih
            rw [List.append_assoc, List.append_assoc]
            apply conversationWF_append _ _ h
            simp only [List.singleton_append, List.nil_append, conversationWF,
              Bool.and_eq_true, Option.getD_some]
            constructor
            · simpa using resultsMatch_mk execTool resp.tool_calls _
            · apply conversationWF_no_assistant
              intro m hm
              rcases List.mem_append.mp hm with hm1 | hm2
              · simp at hm1
              · rcases List.mem_append.mp hm2 with hm3 | hm4
                · obtain ⟨tc, _, rfl⟩ := List.mem_map.mp hm3
                  simp
                · rcases List.mem_singleton.mp hm4 with rfl
                  simp
        · rw [if_neg hne]
          apply ih
          apply conversationWF_append _ _ h
          simp [conversationWF, resultsMatch]
  exact hgen responses step _ (by simp [run_stream_initial, conversationWF])

/-- Witness for C6: a concrete two-response run (one with two tool calls,
one with none) produces a well-formed conversation. -/
theorem run_stream_conversation_wf_witness :
    conversationWF (run_stream (fun tc => "result of " ++ tc.name) (fun _ => "ctx") 1
      [{ content := "", tool_calls :=
          [{ id := "a", name := "act", arguments := "" },
           { id := "b", name := "step", arguments := "" }] },
       { content := "thinking", tool_calls := [] }]
      (run_stream_initial "sys" "ctx0")) = true :=
  run_stream_conversation_wf (fun tc => "result of " ++ tc.name) (fun _ => "ctx")
    "sys" "ctx0"
    [{ content := "", tool_calls :=
        [{ id := "a", name := "act", arguments := "" },
         { id := "b", name := "step", arguments := "" }] },
     { content := "thinking", tool_calls := [] }] 1

/-- A pydantic response model as translate_extract needs it: a schema name,
model_dump into its JSON image, and model_validate back (Option.none when
validation raises). -/
structure ExtractSchema (V D : Type) where
  name : String
  dump : V → D
  validate : D → Option V

/-- TranslateEngine.translate_extract: consult the cache under the hash of
(instruction, context, schema name, extract), validating a hit against the
schema; on a miss call the provider once (errors propagate), store the
dumped result and return it.  The call counter tallies provider calls; the
oracle gives the provider outcome of the n-th call. -/
def translate_extract {V D : Type} (hash : String → String)
    (sch : ExtractSchema V D) (oracle : Nat → Except String V)
    (instruction context_text : String)
    (cache : Option (String → Option D)) (calls : Nat) :
    Except String (V × Option (String → Option D) × Nat) :=
  match cache with
  | Option.some c =>
      match c (TranslateEngine.cache_key hash
          [instruction, context_text, sch.name, "extract"]) with
      | Option.some cached =>
          match sch.validate cached with
          | Option.some v => Except.ok (v, Option.some c, calls)
          | Option.none => Except.error ("validation failed for " ++ sch.name)
      | Option.none =>
          match oracle calls with
          | Except.error e => Except.error e
          | Except.ok result =>
              Except.ok (result,
                Option.some (fun k =>
                  if k = TranslateEngine.cache_key hash
                      [instruction, context_text, sch.name, "extract"]
                  then Option.some (sch.dump result) else c k),
                calls + 1)
  | Option.none =>
      match oracle calls with
      | Except.error e => Except.error e
      | Except.ok result => Except.ok (result, Option.none, calls + 1)

/-- C8: with an enabled cache, a miss calls the provider once and stores
the dumped result under the hash of (instruction, context, schema name,
extract); an immediately following identical call hits that entry and
returns the same value, validated against the schema, without calling the
provider — two calls, one provider call, equal values. -/
theorem translate_extract_idempotent {V D : Type} (hash : String → String)
    (sch : ExtractSchema V D) (oracle : Nat → Except String V)
    (instruction context_text : String) (c : String → Option D) (v : V)
    (hrt : ∀ x, sch.validate (sch.dump x) = Option.some x)
    (hmiss : c (TranslateEngine.cache_key hash
      [instruction, context_text, sch.name, "extract"]) = Option.none)
    (hok : oracle 0 = Except.ok v) :
    translate_extract hash sch oracle instruction context_text (Option.some c) 0
      = Except.ok (v, Option.some (fun k =>
          if k = TranslateEngine.cache_key hash
              [instruction, context_text, sch.name, "extract"]
          then Option.some (sch.dump v) else c k), 1)
    ∧ translate_extract hash sch oracle instruction context_text
        (Option.some (fun k =>
          if k = TranslateEngine.cache_key hash
              [instruction, context_text, sch.name, "extract"]
          then Option.some (sch.dump v) else c k)) 1
      = Except.ok (v, Option.some (fun k =>
          if k = TranslateEngine.cache_key hash
              [instruction, context_text, sch.name, "extract"]
          then Option.some (sch.dump v) else c k), 1) := by
  constructor
  · unfold translate_extract
    dsimp only
    rw [hmiss, hok]
  · unfold translate_extract
    dsimp only
    rw [if_pos rfl]
    dsimp only
    rw [hrt v]

/-- Witness for C8: with an identity schema over Nat and a provider
returning 42, the first call stores and the second call hits. -/
theorem translate_extract_idempotent_witness :
    translate_extract (fun s => s)
      { name := "Out", dump := fun (v : Nat) => v, validate := Option.some }
      (fun _ => Except.ok 42) "instr" "ctx" (Option.some (fun _ => Option.none)) 0
      = Except.ok (42, Option.some (fun k =>
          if k = TranslateEngine.cache_key (fun s => s)
              ["instr", "ctx", "Out", "extract"]
          then Option.some 42 else Option.none), 1) := by
  exact (translate_extract_idempotent (fun s => s)
    { name := "Out", dump := fun (v : Nat) => v, validate := Option.some }
    (fun _ => Except.ok 42) "instr" "ctx" (fun _ => Option.none) 42
    (fun _ => rfl) rfl rfl).1

/-- A CPU register (types/context.py RegisterInfo). -/
structure RegisterInfo where
  name : String
  value : Int
  size : Int
deriving DecidableEq, Repr

/-- A stack frame (types/context.py FrameInfo). -/
structure FrameInfo where
  index : Int
  function_name : Option String
  module_name : Option String
  pc : Int
  file : Option String
  line : Option Int
deriving DecidableEq, Repr

/-- A thread stack trace (types/context.py StackTrace). -/
structure StackTrace where
  frames : List FrameInfo
  thread_id : Int
  thread_name : Option String
deriving DecidableEq, Repr

/-- A memory region (types/context.py MemoryRegionInfo); the source field
end is a Lean keyword, rendered end_. -/
structure MemoryRegionInfo where
  start : Int
  end_ : Int
  readable : Bool
  writable : Bool
  executable : Bool
  name : Option String
deriving DecidableEq, Repr

/-- A loaded module (types/context.py ModuleDetail). -/
structure ModuleDetail where
  name : String
  path : String
  uuid : Option String
  base_address : Int
deriving DecidableEq, Repr

/-- A JSON-serializable Python value, as stored in the variable dicts of a
snapshot. -/
inductive PyJson where
  | null
  | bool (b : Bool)
  | num (n : Int)
  | str (s : String)
  | arr (elems : List PyJson)
  | obj (fields : List (String × PyJson))

/-- A process snapshot (types/context.py ProcessSnapshot); the source
field variables is a Lean command keyword, rendered variables_. -/
structure ProcessSnapshot where
  registers : List RegisterInfo
  stack_trace : Option StackTrace
  memory_regions : List MemoryRegionInfo
  modules : List ModuleDetail
  disassembly : String
  variables_ : List PyJson
  process_state : String
  stop_reason : String
  pc : Option Int
  target_triple : String

/-- Lower-case hex digit. -/
def hexDigit (n : Nat) : String :=
  if n < 10 then toString n
  else if n = 10 then "a" else if n = 11 then "b" else if n = 12 then "c"
  else if n = 13 then "d" else if n = 14 then "e" else "f"

/-- JSON escape of one character, as the pydantic v2 serializer performs
it: quote, backslash and control characters escaped, everything else kept. -/
def jChar (c : Char) : String :=
  if c = '"' then "\\\""
  else if c = '\\' then "\\\\"
  else if c = '\n' then "\\n"
  else if c = '\t' then "\\t"
  else if c = '\r' then "\\r"
  else if c.toNat = 8 then "\\b"
  else if c.toNat = 12 then "\\f"
  else if c.toNat < 32 then "\\u00" ++ hexDigit (c.toNat / 16) ++ hexDigit (c.toNat % 16)
  else String.singleton c

/-- JSON escape of a character list. -/
def jEscapeList : List Char → String
  | [] => ""
  | c :: cs => jChar c ++ jEscapeList cs

/-- A JSON string literal. -/
def jString (s : String) : String := "\"" ++ jEscapeList s.toList ++ "\""

/-- Comma-joined serialized items of a JSON array. -/
def jItems {α : Type} (f : α → String) : List α → String
  | [] => ""
  | [x] => f x
  | x :: y :: xs => f x ++ "," ++ jItems f (y :: xs)

/-- A JSON array. -/
def jArr {α : Type} (f : α → String) (xs : List α) : String :=
  "[" ++ jItems f xs ++ "]"

/-- A JSON boolean. -/
def jBool (b : Bool) : String := if b then "true" else "false"

/-- An optional JSON string (null when absent). -/
def jOptStr : Option String → String
  | Option.none => "null"
  | Option.some s => jString s

/-- An optional JSON integer (null when absent). -/
def jOptInt : Option Int → String
  | Option.none => "null"
  | Option.some n => toString n

/-- Serialized register, fields in declaration order, compact separators. -/
def serRegister (r : RegisterInfo) : String :=
  "\x7b\"name\":" ++ jString r.name ++ ",\"value\":" ++ toString r.value
    ++ ",\"size\":" ++ toString r.size ++ "\x7d"

/-- Serialized stack frame. -/
def serFrame (f : FrameInfo) : String :=
  "\x7b\"index\":" ++ toString f.index
    ++ ",\"function_name\":" ++ jOptStr f.function_name
    ++ ",\"module_name\":" ++ jOptStr f.module_name
    ++ ",\"pc\":" ++ toString f.pc
    ++ ",\"file\":" ++ jOptStr f.file
    ++ ",\"line\":" ++ jOptInt f.line ++ "\x7d"

/-- Serialized stack trace. -/
def serStackTrace (st : StackTrace) : String :=
  "\x7b\"frames\":" ++ jArr serFrame st.frames
    ++ ",\"thread_id\":" ++ toString st.thread_id
    ++ ",\"thread_name\":" ++ jOptStr st.thread_name ++ "\x7d"

/-- Serialized optional stack trace. -/
def serOptStackTrace : Option StackTrace → String
  | Option.none => "null"
  | Option.some st => serStackTrace st

/-- Serialized memory region. -/
def serMemoryRegion (m : MemoryRegionInfo) : String :=
  "\x7b\"start\":" ++ toString m.start ++ ",\"end\":" ++ toString m.end_
    ++ ",\"readable\":" ++ jBool m.readable
    ++ ",\"writable\":" ++ jBool m.writable
    ++ ",\"executable\":" ++ jBool m.executable
    ++ ",\"name\":" ++ jOptStr m.name ++ "\x7d"

/-- Serialized module. -/
def serModule (m : ModuleDetail) : String :=
  "\x7b\"name\":" ++ jString m.name ++ ",\"path\":" ++ jString m.path
    ++ ",\"uuid\":" ++ jOptStr m.uuid
    ++ ",\"base_address\":" ++ toString m.base_address ++ "\x7d"

mutual

/-- Serialized JSON value (for the variable dicts). -/
def serPyJson : PyJson → String
  | PyJson.null => "null"
  | PyJson.bool b => jBool b
  | PyJson.num n => toString n
  | PyJson.str s => jString s
  | PyJson.arr elems => "[" ++ serPyJsonItems elems ++ "]"
  | PyJson.obj fields => "\x7b" ++ serPyJsonFields fields ++ "\x7d"

/-- Serialized JSON array elements. -/
def serPyJsonItems : List PyJson → String
  | [] => ""
  | [x] => serPyJson x
  | x :: y :: xs => serPyJson x ++ "," ++ serPyJsonItems (y :: xs)

/-- Serialized JSON object fields. -/
def serPyJsonFields : List (String × PyJson) → String
  | [] => ""
  | [(k, v)] => jString k ++ ":" ++ serPyJson v
  | (k, v) :: kv :: kvs =>
      jString k ++ ":" ++ serPyJson v ++ "," ++ serPyJsonFields (kv :: kvs)

end

/-- ProcessSnapshot.model_dump_json: compact JSON with fields in
declaration order. -/
def serSnapshot (s : ProcessSnapshot) : String :=
  "\x7b\"registers\":" ++ jArr serRegister s.registers
    ++ ",\"stack_trace\":" ++ serOptStackTrace s.stack_trace
    ++ ",\"memory_regions\":" ++ jArr serMemoryRegion s.memory_regions
    ++ ",\"modules\":" ++ jArr serModule s.modules
    ++ ",\"disassembly\":" ++ jString s.disassembly
    ++ ",\"variables\":" ++ jArr serPyJson s.variables_
    ++ ",\"process_state\":" ++ jString s.process_state
    ++ ",\"stop_reason\":" ++ jString s.stop_reason
    ++ ",\"pc\":" ++ jOptInt s.pc
    ++ ",\"target_triple\":" ++ jString s.target_triple
    ++ "\x7d"

/-- ContextBuilder._estimate_tokens: serialized length divided by four. -/
def _estimate_tokens (s : ProcessSnapshot) : Nat := (serSnapshot s).length / 4

/-- The first reduction of ContextBuilder._prune: drop all memory regions. -/
def dropMemoryRegions (s : ProcessSnapshot) : ProcessSnapshot :=
  { s with memory_regions := [] }

/-- The second reduction: keep only the first ten modules. -/
def trimModules (s : ProcessSnapshot) : ProcessSnapshot :=
  { s with modules := s.modules.take 10 }

/-- The third reduction: keep only the first ten stack frames. -/
def trimFrames (s : ProcessSnapshot) : ProcessSnapshot :=
  { s with stack_trace :=
      s.stack_trace.map (fun st => { st with frames := st.frames.take 10 }) }

/-- The fourth reduction: truncate the disassembly to 500 characters and
append the truncation marker (only when it exceeds 500 characters). -/
def truncDisasm (s : ProcessSnapshot) : ProcessSnapshot :=
  if 500 < s.disassembly.length then
    { s with disassembly := strTake s.disassembly 500 ++ "\n... (truncated)" }
  else s

/-- The fifth reduction: keep only the first ten variables. -/
def trimVariables (s : ProcessSnapshot) : ProcessSnapshot :=
  { s with variables_ := s.variables_.take 10 }

/-- The tail of _prune from the variables step on: trim only when more
than ten variables remain, then return unconditionally. -/
def pruneVariablesStep (p : ProcessSnapshot) : ProcessSnapshot :=
  if 10 < p.variables_.length then trimVariables p else p

/-- The tail of _prune from the disassembly step on. -/
def pruneDisasmStep (maxTokens : Nat) (p : ProcessSnapshot) : ProcessSnapshot :=
  if 500 < p.disassembly.length then
    if _estimate_tokens (truncDisasm p) ≤ maxTokens then truncDisasm p
    else pruneVariablesStep (truncDisasm p)
  else pruneVariablesStep p

/-- The tail of _prune from the stack-frames step on. -/
def pruneFramesStep (maxTokens : Nat) (p : ProcessSnapshot) : ProcessSnapshot :=
  match p.stack_trace with
  | Option.some st =>
      if 10 < st.frames.length then
        if _estimate_tokens (trimFrames p) ≤ maxTokens then trimFrames p
        else pruneDisasmStep maxTokens (trimFrames p)
      else pruneDisasmStep maxTokens p
  | Option.none => pruneDisasmStep maxTokens p

/-- The tail of _prune from the modules step on. -/
def pruneModulesStep (maxTokens : Nat) (p : ProcessSnapshot) : ProcessSnapshot :=
  if 10 < p.modules.length then
    if _estimate_tokens (trimModules p) ≤ maxTokens then trimModules p
    else pruneFramesStep maxTokens (trimModules p)
  else pruneFramesStep maxTokens p

/-- The tail of _prune from the memory-regions step on. -/
def pruneMemStep (maxTokens : Nat) (p : ProcessSnapshot) : ProcessSnapshot :=
  if p.memory_regions ≠ [] then
    if _estimate_tokens (dropMemoryRegions p) ≤ maxTokens then dropMemoryRegions p
    else pruneModulesStep maxTokens (dropMemoryRegions p)
  else pruneModulesStep maxTokens p

/-- ContextBuilder._prune: return unchanged when within budget, else apply
the reduction chain with its early returns. -/
def _prune (maxTokens : Nat) (s : ProcessSnapshot) : ProcessSnapshot :=
  if _estimate_tokens s ≤ maxTokens then s else pruneMemStep maxTokens s

/-- The specified description of pruning: the five reductions applied in
fixed order, stopping at the first result whose estimate is within budget
(an unconditionally applied step that changes nothing stands for a skipped
step). -/
def pruneSpec (maxTokens : Nat) (s : ProcessSnapshot) : ProcessSnapshot :=
  if _estimate_tokens s ≤ maxTokens then s
  else if _estimate_tokens (dropMemoryRegions s) ≤ maxTokens then
    dropMemoryRegions s
  else if _estimate_tokens (trimModules (dropMemoryRegions s)) ≤ maxTokens then
    trimModules (dropMemoryRegions s)
  else if _estimate_tokens (trimFrames (trimModules (dropMemoryRegions s)))
      ≤ maxTokens then
    trimFrames (trimModules (dropMemoryRegions s))
  else if _estimate_tokens (truncDisasm (trimFrames (trimModules
      (dropMemoryRegions s)))) ≤ maxTokens then
    truncDisasm (trimFrames (trimModules (dropMemoryRegions s)))
  else
    trimVariables (truncDisasm (trimFrames (trimModules (dropMemoryRegions s))))

/-- Helper: dropping absent memory regions changes nothing. -/
theorem dropMemoryRegions_id (p : ProcessSnapshot) (h : p.memory_regions = []) :
    dropMemoryRegions p = p := by
  cases p
  simp_all [dropMemoryRegions]

/-- Helper: trimming at most ten modules changes nothing. -/
theorem trimModules_id (p : ProcessSnapshot) (h : ¬ 10 < p.modules.length) :
    trimModules p = p := by
  have h10 : p.modules.length ≤ 10 := by omega
  cases p
  simp_all [trimModules, List.take_of_length_le]

/-- Helper: trimming frames without a stack trace changes nothing. -/
theorem trimFrames_id_none (p : ProcessSnapshot) (h : p.stack_trace = Option.none) :
    trimFrames p = p := by
  cases p
  simp_all [trimFrames]

/-- Helper: trimming at most ten frames changes nothing. -/
theorem trimFrames_id_small (p : ProcessSnapshot) (st : StackTrace)
    (h : p.stack_trace = Option.some st) (h2 : ¬ 10 < st.frames.length) :
    trimFrames p = p := by
  have h10 : st.frames.length ≤ 10 := by omega
  cases p
  cases st
  simp_all [trimFrames, List.take_of_length_le]

/-- Helper: truncating a short disassembly changes nothing. -/
theorem truncDisasm_id (p : ProcessSnapshot) (h : ¬ 500 < p.disassembly.length) :
    truncDisasm p = p := by
  unfold truncDisasm
  rw [if_neg h]

/-- Helper: trimming at most ten variables changes nothing. -/
theorem trimVariables_id (p : ProcessSnapshot) (h : ¬ 10 < p.variables_.length) :
    trimVariables p = p := by
  have h10 : p.variables_.length ≤ 10 := by omega
  cases p
  simp_all [trimVariables, List.take_of_length_le]

/-- Helper: the variables tail always equals the unconditional trim. -/
theorem pruneVariablesStep_eq (p : ProcessSnapshot) :
    pruneVariablesStep p = trimVariables p := by
  unfold pruneVariablesStep
  by_cases h : 10 < p.variables_.length
  · rw [if_pos h]
  · rw [if_neg h, trimVariables_id p h]

/-- Helper: the disassembly tail matches the spec chain on inputs still
over budget. -/
theorem pruneDisasmStep_eq (mt : Nat) (p : ProcessSnapshot)
    (h : ¬ _estimate_tokens p ≤ mt) :
    pruneDisasmStep mt p =
      (if _estimate_tokens (truncDisasm p) ≤ mt then truncDisasm p
       else trimVariables (truncDisasm p)) := by
  unfold pruneDisasmStep
  by_cases hd : 500 < p.disassembly.length
  · rw [if_pos hd, pruneVariablesStep_eq]
  · rw [if_neg hd, pruneVariablesStep_eq, truncDisasm_id p hd, if_neg h]

/-- Helper: the frames tail matches the spec chain on inputs still over
budget. -/
theorem pruneFramesStep_eq (mt : Nat) (p : ProcessSnapshot)
    (h : ¬ _estimate_tokens p ≤ mt) :
    pruneFramesStep mt p =
      (if _estimate_tokens (trimFrames p) ≤ mt then trimFrames p
       else if _estimate_tokens (truncDisasm (trimFrames p)) ≤ mt then
         truncDisasm (trimFrames p)
       else trimVariables (truncDisasm (trimFrames p))) := by
  unfold pruneFramesStep
  split
  next st hst =>
    by_cases hf : 10 < st.frames.length
    · rw [if_pos hf]
      by_cases hb : _estimate_tokens (trimFrames p) ≤ mt
      · rw [if_pos hb, if_pos hb]
      · rw [if_neg hb, if_neg hb]
        exact pruneDisasmStep_eq mt (trimFrames p) hb
    · rw [if_neg hf, trimFrames_id_small p st hst hf, if_neg h]
      exact pruneDisasmStep_eq mt p h
  next hst =>
    rw [trimFrames_id_none p hst, if_neg h]
    exact pruneDisasmStep_eq mt p h

/-- Helper: the modules tail matches the spec chain on inputs still over
budget. -/
theorem pruneModulesStep_eq (mt : Nat) (p : ProcessSnapshot)
    (h : ¬ _estimate_tokens p ≤ mt) :
    pruneModulesStep mt p =
      (if _estimate_tokens (trimModules p) ≤ mt then trimModules p
       else if _estimate_tokens (trimFrames (trimModules p)) ≤ mt then
         trimFrames (trimModules p)
       else if _estimate_tokens (truncDisasm (trimFrames (trimModules p))) ≤ mt then
         truncDisasm (trimFrames (trimModules p))
       else trimVariables (truncDisasm (trimFrames (trimModules p)))) := by
  unfold pruneModulesStep
  by_cases hm : 10 < p.modules.length
  · rw [if_pos hm]
    by_cases hb : _estimate_tokens (trimModules p) ≤ mt
    · rw [if_pos hb, if_pos hb]
    · rw [if_neg hb, if_neg hb]
      exact pruneFramesStep_eq mt (trimModules p) hb
  · rw [if_neg hm, trimModules_id p hm, if_neg h]
    exact pruneFramesStep_eq mt p h

/-- Helper: the memory tail matches the spec chain on inputs still over
budget. -/
theorem pruneMemStep_eq (mt : Nat) (p : ProcessSnapshot)
    (h : ¬ _estimate_tokens p ≤ mt) :
    pruneMemStep mt p =
      (if _estimate_tokens (dropMemoryRegions p) ≤ mt then dropMemoryRegions p
       else if _estimate_tokens (trimModules (dropMemoryRegions p)) ≤ mt then
         trimModules (dropMemoryRegions p)
       else if _estimate_tokens (trimFrames (trimModules (dropMemoryRegions p)))
           ≤ mt then
         trimFrames (trimModules (dropMemoryRegions p))
       else if _estimate_tokens (truncDisasm (trimFrames (trimModules
           (dropMemoryRegions p)))) ≤ mt then
         truncDisasm (trimFrames (trimModules (dropMemoryRegions p)))
       else trimVariables (truncDisasm (trimFrames (trimModules
           (dropMemoryRegions p))))) := by
  unfold pruneMemStep
  by_cases hm : p.memory_regions ≠ []
  · rw [if_pos hm]
    by_cases hb : _estimate_tokens (dropMemoryRegions p) ≤ mt
    · rw [if_pos hb, if_pos hb]
    · rw [if_neg hb, if_neg hb]
      exact pruneModulesStep_eq mt (dropMemoryRegions p) hb
  · rw [if_neg hm]
    rw [Classical.not_not] at hm
    rw [dropMemoryRegions_id p hm, if_neg h]
    exact pruneModulesStep_eq mt p h

/-- Helper: _prune computes exactly the spec chain. -/
theorem _prune_eq_pruneSpec (mt : Nat) (s : ProcessSnapshot) :
    _prune mt s = pruneSpec mt s := by
  unfold _prune pruneSpec
  by_cases h0 : _estimate_tokens s ≤ mt
  · rw [if_pos h0, if_pos h0]
  · rw [if_neg h0, if_neg h0]
    exact pruneMemStep_eq mt s h0

/-- Helper: the length of comma-joined items, as item lengths plus commas. -/
theorem jItems_length {α : Type} (f : α → String) :
    ∀ xs : List α,
      (jItems f xs).length = ((xs.map fun x => (f x).length).sum) + (xs.length - 1)
  | [] => by simp [jItems]
  | [x] => by simp [jItems]
  | x :: y :: ys => by
      have ih := jItems_length f (y :: ys)
      have hc : ("," : String).length = 1 := rfl
      simp only [jItems, String.length_append, ih, List.map_cons, List.sum_cons,
        List.length_cons, hc]
      omega

/-- Helper: a prefix sums to at most the whole list. -/
theorem sum_take_le (l : List Nat) (n : Nat) : (l.take n).sum ≤ l.sum := by
  conv_rhs => rw [← List.take_append_drop n l]
  rw [List.sum_append]
  exact Nat.le_add_right _ _

/-- Helper: serialized items of a prefix are no longer than of the whole
list. -/
theorem jItems_take_le {α : Type} (f : α → String) (xs : List α) (n : Nat) :
    (jItems f (xs.take n)).length ≤ (jItems f xs).length := by
  rw [jItems_length, jItems_length, List.map_take]
  have h1 := sum_take_le (xs.map fun x => (f x).length) n
  have h2 : (xs.take n).length ≤ xs.length := by
    rw [List.length_take]
    exact Nat.min_le_right _ _
  omega

/-- Helper: a serialized array of a prefix is no longer. -/
theorem jArr_take_le {α : Type} (f : α → String) (xs : List α) (n : Nat) :
    (jArr f (xs.take n)).length ≤ (jArr f xs).length := by
  simp only [jArr, String.length_append]
  have := jItems_take_le f xs n
  omega

/-- Helper: an empty serialized array is no longer than any other. -/
theorem jArr_nil_le {α : Type} (f : α → String) (xs : List α) :
    (jArr f ([] : List α)).length ≤ (jArr f xs).length := by
  simpa using jArr_take_le f xs 0

/-- Helper: every escaped character takes at least one character. -/
theorem jChar_one_le (c : Char) : 1 ≤ (jChar c).length := by
  have h4 : ("\\u00" : String).length = 4 := rfl
  unfold jChar
  repeat' split
  · decide
  · decide
  · decide
  · decide
  · decide
  · decide
  · decide
  · simp only [String.length_append, h4]
    omega
  · simp [String.singleton, String.push, String.length]

/-- Helper: escaping distributes over character-list append. -/
theorem jEscapeList_append (l1 l2 : List Char) :
    jEscapeList (l1 ++ l2) = jEscapeList l1 ++ jEscapeList l2 := by
  induction l1 with
  | nil => simp [jEscapeList]
  | cons c cs ih => simp [jEscapeList, ih, String.append_assoc]

/-- Helper: escaping never shortens a character list. -/
theorem jEscapeList_ge (l : List Char) : l.length ≤ (jEscapeList l).length := by
  induction l with
  | nil => simp [jEscapeList]
  | cons c cs ih =>
      have := jChar_one_le c
      simp only [jEscapeList, String.length_append, List.length_cons]
      omega

/-- Helper: truncating a disassembly of at least 517 characters to 500 plus
the 16-character marker shortens its serialized string literal. -/
theorem jString_trunc_le (d : String) (h : 517 ≤ d.length) :
    (jString (strTake d 500 ++ "\n... (truncated)")).length ≤ (jString d).length := by
  have hlen : d.toList.length = d.length := rfl
  have htl : (strTake d 500 ++ ("\n... (truncated)" : String)).toList
      = d.toList.take 500 ++ ("\n... (truncated)" : String).toList := rfl
  have hm : (jEscapeList ("\n... (truncated)" : String).toList).length = 17 := rfl
  have hdrop : 17 ≤ (d.toList.drop 500).length := by
    rw [List.length_drop]
    omega
  have hsplit : jEscapeList d.toList
      = jEscapeList (d.toList.take 500) ++ jEscapeList (d.toList.drop 500) := by
    conv_lhs => rw [← List.take_append_drop 500 d.toList]
    exact jEscapeList_append _ _
  have hge := jEscapeList_ge (d.toList.drop 500)
  simp only [jString, String.length_append, htl, jEscapeList_append, hm, hsplit]
  omega

/-- Helper: dropping memory regions never raises the estimate. -/
theorem est_dropMemoryRegions_le (s : ProcessSnapshot) :
    _estimate_tokens (dropMemoryRegions s) ≤ _estimate_tokens s := by
  apply Nat.div_le_div_right
  cases s with
  | mk reg st mem mods dis vars ps sr pc tt =>
    simp only [serSnapshot, dropMemoryRegions, String.length_append]
    have := jArr_nil_le serMemoryRegion mem
    omega

/-- Helper: trimming modules never raises the estimate. -/
theorem est_trimModules_le (s : ProcessSnapshot) :
    _estimate_tokens (trimModules s) ≤ _estimate_tokens s := by
  apply Nat.div_le_div_right
  cases s with
  | mk reg st mem mods dis vars ps sr pc tt =>
    simp only [serSnapshot, trimModules, String.length_append]
    have := jArr_take_le serModule mods 10
    omega

/-- Helper: trimming stack frames never raises the estimate. -/
theorem est_trimFrames_le (s : ProcessSnapshot) :
    _estimate_tokens (trimFrames s) ≤ _estimate_tokens s := by
  cases s with
  | mk reg stOpt mem mods dis vars ps sr pc tt =>
    cases stOpt with
    | none => exact Nat.le_refl _
    | some st =>
        apply Nat.div_le_div_right
        cases st with
        | mk frames tid tname =>
          simp only [serSnapshot, trimFrames, Option.map, serOptStackTrace,
            serStackTrace, String.length_append]
          have := jArr_take_le serFrame frames 10
          omega

/-- Helper: trimming variables never raises the estimate. -/
theorem est_trimVariables_le (s : ProcessSnapshot) :
    _estimate_tokens (trimVariables s) ≤ _estimate_tokens s := by
  apply Nat.div_le_div_right
  cases s with
  | mk reg st mem mods dis vars ps sr pc tt =>
    simp only [serSnapshot, trimVariables, String.length_append]
    have := jArr_take_le serPyJson vars 10
    omega

/-- Helper: truncating a disassembly of at least 517 characters never
raises the estimate. -/
theorem est_truncDisasm_le (s : ProcessSnapshot)
    (h : 517 ≤ s.disassembly.length) :
    _estimate_tokens (truncDisasm s) ≤ _estimate_tokens s := by
  have h500 : 500 < s.disassembly.length := by omega
  unfold truncDisasm
  rw [if_pos h500]
  apply Nat.div_le_div_right
  cases s with
  | mk reg st mem mods dis vars ps sr pc tt =>
    simp only [serSnapshot, String.length_append]
    have := jString_trunc_le dis h
    omega

/-- C4 counterexample data: a snapshot whose only weight is a 501-character
disassembly, so that the truncation step fires yet the 16-character marker
makes the serialized snapshot longer. -/
def cexSnapshot : ProcessSnapshot :=
  { registers := [], stack_trace := Option.none, memory_regions := [],
    modules := [], disassembly := String.mk (List.replicate 501 'a'),
    variables_ := [], process_state := "", stop_reason := "",
    pc := Option.none, target_triple := "" }

set_option maxHeartbeats 2000000 in
set_option maxRecDepth 10000 in
/-- C4 counterexample: on this snapshot the disassembly-truncation step
fires during pruning (disassembly longer than 500) and strictly increases
the estimated token count — pruning is not monotone-non-increasing. -/
theorem prune_not_monotone_counterexample :
    500 < cexSnapshot.disassembly.length
    ∧ _estimate_tokens cexSnapshot
        < _estimate_tokens (_prune 10 cexSnapshot) := by
  decide

/-- C4 amended: pruning applies the five reductions in the fixed order and
stops at the first step whose output is within budget; the first three
reductions and the variables reduction are monotone-non-increasing in
estimated tokens, and the disassembly truncation is monotone-non-increasing
only when the disassembly measures at least 517 characters (with a
501-character disassembly it strictly increases the estimate, see the
counterexample). -/
theorem prune_order_and_monotonicity (mt : Nat) (s : ProcessSnapshot) :
    _prune mt s = pruneSpec mt s
    ∧ (∀ p, _estimate_tokens (dropMemoryRegions p) ≤ _estimate_tokens p)
    ∧ (∀ p, _estimate_tokens (trimModules p) ≤ _estimate_tokens p)
    ∧ (∀ p, _estimate_tokens (trimFrames p) ≤ _estimate_tokens p)
    ∧ (∀ p, _estimate_tokens (trimVariables p) ≤ _estimate_tokens p)
    ∧ (∀ p, 517 ≤ p.disassembly.length →
        _estimate_tokens (truncDisasm p) ≤ _estimate_tokens p) :=
  ⟨_prune_eq_pruneSpec mt s, est_dropMemoryRegions_le, est_trimModules_le,
   est_trimFrames_le, est_trimVariables_le, est_truncDisasm_le⟩

set_option maxHeartbeats 2000000 in
set_option maxRecDepth 10000 in
/-- Witness for C4 amended: on the counterexample snapshot pruning follows
the spec chain, and a 520-character disassembly truncates without raising
the estimate. -/
theorem prune_order_and_monotonicity_witness :
    _prune 10 cexSnapshot = pruneSpec 10 cexSnapshot
    ∧ _estimate_tokens (truncDisasm
        { cexSnapshot with disassembly := String.mk (List.replicate 520 'a') })
      ≤ _estimate_tokens
        { cexSnapshot with disassembly := String.mk (List.replicate 520 'a') } := by
  refine ⟨(prune_order_and_monotonicity 10 cexSnapshot).1, ?_⟩
  exact (prune_order_and_monotonicity 10 cexSnapshot).2.2.2.2.2
    { cexSnapshot with disassembly := String.mk (List.replicate 520 'a') }
    (by decide)

end Morgul
